import Mathlib

/-!
Shallow embedding of the App Store Connect MCP server core
(`src/auth.ts`, `src/client.ts`, `src/tools/reviews.ts`) together with
theorems about the token cache, the request engine's error surfacing,
the pagination walker, the report downloader and the review-sentiment
aggregation.

Effectful code is embedded by making the network and cryptographic
effects explicit parameters: the JWT signer is a function from payloads
to token strings, HTTP responses are passed in as values, page fetches
during pagination are an oracle from URLs to fetch results, and gzip
decompression is a fallible function on byte lists.
-/

namespace ASC

/-! ### auth.ts — Signed-Token Issuer -/

/-- `AppStoreConnectConfig` from `types.ts`. -/
structure AppStoreConnectConfig where
  issuerId : String
  keyId : String
  privateKey : String
  vendorNumber : Option String
deriving DecidableEq, Repr

/-- `const AUDIENCE = 'appstoreconnect-v1'` in `auth.ts`. -/
def AUDIENCE : String := "appstoreconnect-v1"

/-- The `JWTPayload` interface of `auth.ts`; times are Unix seconds. -/
structure JWTPayload where
  iss : String
  iat : Nat
  exp : Nat
  aud : String
deriving DecidableEq, Repr

/-- The mutable fields `cachedToken`/`tokenExpiry` of `AppStoreConnectAuth`;
`cachedToken` is `null` initially, modelled as `none`. -/
structure AuthState where
  cachedToken : Option String
  tokenExpiry : Nat
deriving DecidableEq, Repr

/-- The constructor's field initialisation: `cachedToken = null`, `tokenExpiry = 0`. -/
def initialAuthState : AuthState := ⟨none, 0⟩

/-- JavaScript truthiness of the nullable string `this.cachedToken`:
`null` and the empty string are falsy. -/
def tokenTruthy : Option String → Bool
  | none => false
  | some t => !(t = "")

/-- The payload built by `generateToken`:
`{ iss, iat: now, exp: now + 20 * 60, aud: AUDIENCE }`. -/
def mkPayload (config : AppStoreConnectConfig) (now : Nat) : JWTPayload :=
  ⟨config.issuerId, now, now + 20 * 60, AUDIENCE⟩

/-- `AppStoreConnectAuth.generateToken`.  `sign` stands for
`jwt.sign(payload, privateKey, { algorithm: ES256, keyid })`; `now` is
`Math.floor(Date.now() / 1000)`.  Returns the token together with the
post-call cache state. -/
def generateToken (sign : JWTPayload → String) (config : AppStoreConnectConfig)
    (now : Nat) (s : AuthState) : String × AuthState :=
  if tokenTruthy s.cachedToken && decide (s.tokenExpiry > now + 60) then
    (s.cachedToken.getD "", s)
  else
    let payload := mkPayload config now
    let token := sign payload
    (token, ⟨some token, payload.exp⟩)

/-- `AppStoreConnectAuth.getAuthHeaders`, with the token string made explicit. -/
def getAuthHeaders (tok : String) : List (String × String) :=
  [("Authorization", "Bearer " ++ tok), ("Content-Type", "application/json")]

/-! ### client.ts — HTTP Request Engine, Pagination Walker, Report Downloader -/

/-- One entry of the `errors` array of the `ApiError` interface; only
`detail` is read by the client, and a runtime body may omit it. -/
structure ErrObj where
  detail : Option String
deriving DecidableEq, Repr

/-- The primary `data` of an `ApiResponse<T>`: a single resource or an
array (`Array.isArray` distinguishes the two at runtime). -/
inductive Primary (T : Type) where
  | single (t : T)
  | arr (ts : List T)
deriving DecidableEq, Repr

/-- The navigation `links` of an `ApiResponse`; only `next` is read by the
pagination walker. -/
structure Links where
  next : Option String
deriving DecidableEq, Repr

/-- The `ApiResponse<T>` wire shape, restricted to the fields the client
core reads (`data` and `links.next`). -/
structure ApiResponse (T : Type) where
  data : Primary T
  links : Links
deriving DecidableEq, Repr

/-- An HTTP response as observed by the request engine: the `ok` flag,
status, status text, the body parsed as an `ApiError` (its `errors` field,
absent when the body carries no structured error array) and, for 2xx
responses, the body parsed as an `ApiResponse<T>`. -/
structure HttpResponse (T : Type) where
  ok : Bool
  status : Nat
  statusText : String
  errorBody : Option (List ErrObj)
  successBody : ApiResponse T
deriving DecidableEq, Repr

/-- The JavaScript expression `error.errors?.[0]?.detail || response.statusText`:
the first error's `detail` when it exists and is truthy (non-empty),
otherwise the HTTP status text. -/
def firstDetailOr (errs : Option (List ErrObj)) (statusText : String) : String :=
  match errs with
  | some (e :: _) =>
    match e.detail with
    | some d => if d = "" then statusText else d
    | none => statusText
  | _ => statusText

/-- The message of the error thrown on a non-2xx response:
`` `API Error: ${error.errors?.[0]?.detail || response.statusText}` ``. -/
def apiErrorMessage (errs : Option (List ErrObj)) (statusText : String) : String :=
  "API Error: " ++ firstDetailOr errs statusText

/-- `AppStoreConnectClient.get`, as a function of the fetched response. -/
def get {T : Type} (resp : HttpResponse T) : Except String (ApiResponse T) :=
  if resp.ok then .ok resp.successBody
  else .error (apiErrorMessage resp.errorBody resp.statusText)

/-- `AppStoreConnectClient.post`, as a function of the fetched response;
its non-2xx handling is identical to `get`'s. -/
def post {T : Type} (resp : HttpResponse T) : Except String (ApiResponse T) :=
  if resp.ok then .ok resp.successBody
  else .error (apiErrorMessage resp.errorBody resp.statusText)

/-- `AppStoreConnectClient.patch`, as a function of the fetched response;
its non-2xx handling is identical to `get`'s. -/
def patch {T : Type} (resp : HttpResponse T) : Except String (ApiResponse T) :=
  if resp.ok then .ok resp.successBody
  else .error (apiErrorMessage resp.errorBody resp.statusText)

/-- `AppStoreConnectClient.delete`, as a function of the fetched response;
a 2xx response yields no body. -/
def delete (resp : HttpResponse Unit) : Except String Unit :=
  if resp.ok then .ok ()
  else .error (apiErrorMessage resp.errorBody resp.statusText)

/-- Outcome of one `fetch(nextUrl, ...)` inside `getAll`'s loop: the
promise rejects (transport failure), the response is non-2xx (`!response.ok`),
or it is 2xx with a parsed `ApiResponse` body. -/
inductive FetchResult (T : Type) where
  | rejects (msg : String)
  | notOk
  | ok (resp : ApiResponse T)
deriving DecidableEq, Repr

/-- What `results.push(...)` receives from one page: the `data` array when
`Array.isArray(data)` holds, and nothing otherwise. -/
def primaryItems {T : Type} : Primary T → List T
  | .arr l => l
  | .single _ => []

/-- Items a page contributes to the walker's accumulator. -/
def pageItems {T : Type} (p : ApiResponse T) : List T :=
  primaryItems p.data

/-- The `while (nextUrl)` loop of `AppStoreConnectClient.getAll`:
follow the `next` link via the fetch oracle; a rejected fetch propagates,
a non-2xx response breaks and keeps the partial results.  `fuel` bounds
the number of iterations (the source loop has no bound; every theorem
below supplies enough fuel for its walk). -/
def getAllLoop {T : Type} (fetch : String → FetchResult T) :
    Nat → List T → Option String → Except String (List T)
  | _, results, none => .ok results
  | 0, results, some _ => .ok results
  | fuel + 1, results, some url =>
    match fetch url with
    | .rejects msg => .error msg
    | .notOk => .ok results
    | .ok data => getAllLoop fetch fuel (results ++ pageItems data) data.links.next

/-- `AppStoreConnectClient.getAll`: the first page goes through `this.get`
(whose non-2xx error propagates), then the loop follows `next` links. -/
def getAll {T : Type} (firstResp : HttpResponse T) (fetch : String → FetchResult T)
    (fuel : Nat) : Except String (List T) :=
  match get firstResp with
  | .error e => .error e
  | .ok first => getAllLoop fetch fuel (pageItems first) first.links.next

/-- `fetch url` yields page after page along `next` links: starting from
link `nxt`, the pages `ps` are fetched successfully in order and the walk
ends with link `last` (the last page's `next`, or `nxt` itself when `ps`
is empty). -/
def chainNext {T : Type} (fetch : String → FetchResult T) :
    Option String → List (ApiResponse T) → Option String → Prop
  | nxt, [], last => nxt = last
  | some url, p :: ps, last => fetch url = .ok p ∧ chainNext fetch p.links.next ps last
  | none, _ :: _, _ => False

/-- A response from a report endpoint: flags plus the raw body bytes
(`response.arrayBuffer()`), and the body parsed as an `ApiError` for the
non-404 failure branch. -/
structure ReportResponse where
  ok : Bool
  status : Nat
  statusText : String
  errorBody : Option (List ErrObj)
  bytes : List Nat
deriving DecidableEq, Repr

/-- The message thrown by `getSalesReport` on HTTP 404. -/
def salesReportNotAvailableMsg : String :=
  "No report available for the specified date. Reports may take up to 24 hours to be available."

/-- `AppStoreConnectClient.getSalesReport`, as a function of the fetched
response.  `gunzip` stands for `zlib.gunzipSync` (an `.error` is the
exception it throws on non-gzip input, which this function does not
catch); `utf8` is `Buffer.toString('utf-8')`. -/
def getSalesReport (gunzip : List Nat → Except String (List Nat))
    (utf8 : List Nat → String) (resp : ReportResponse) : Except String String :=
  if resp.ok then
    match gunzip resp.bytes with
    | .ok d => .ok (utf8 d)
    | .error m => .error m
  else if resp.status = 404 then
    .error salesReportNotAvailableMsg
  else
    .error (apiErrorMessage resp.errorBody resp.statusText)

/-- `String.prototype.includes` on character lists: does `pat` occur as a
contiguous substring? -/
def charsInclude : List Char → List Char → Bool
  | _, [] => true
  | [], _ :: _ => false
  | c :: cs, p :: ps =>
    (charsMatch (p :: ps) (c :: cs)) || charsInclude cs (p :: ps)
where
  /-- Does the first list occur at the head of the second? -/
  charsMatch : List Char → List Char → Bool
  | [], _ => true
  | _ :: _, [] => false
  | p :: ps, c :: cs => (p = c) && charsMatch ps cs

/-- `url.includes(pat)` for strings. -/
def strIncludes (s pat : String) : Bool :=
  charsInclude s.data pat.data

/-- The cloud-object-storage detection of `downloadAnalyticsSegment`:
`url.includes("s3.") || url.includes("amazonaws.com")`. -/
def isS3Url (url : String) : Bool :=
  strIncludes url "s3." || strIncludes url "amazonaws.com"

/-- The request headers `downloadAnalyticsSegment` sends: none for an S3
URL, otherwise the auth headers plus `Accept-Encoding: gzip`. -/
def segmentRequestHeaders (tok url : String) : List (String × String) :=
  if isS3Url url then []
  else getAuthHeaders tok ++ [("Accept-Encoding", "gzip")]

/-- A response to a segment download: flags, the textual body used for the
error message (`none` when `response.text()` rejects, in which case the
status text is substituted), and the raw body bytes. -/
structure SegResponse where
  ok : Bool
  status : Nat
  statusText : String
  bodyText : Option String
  bytes : List Nat
deriving DecidableEq, Repr

/-- The body handling of `AppStoreConnectClient.downloadAnalyticsSegment`:
on a 2xx response, try `gunzipSync`; if it throws, fall back to decoding
the raw bytes (`new TextDecoder().decode(buffer)`).  On a non-2xx
response, throw the segment-download error with status, status text and
the first 200 characters of the body. -/
def downloadAnalyticsSegment (gunzip : List Nat → Except String (List Nat))
    (utf8 : List Nat → String) (resp : SegResponse) : Except String String :=
  if resp.ok then
    match gunzip resp.bytes with
    | .ok d => .ok (utf8 d)
    | .error _ => .ok (utf8 resp.bytes)
  else
    .error ("Failed to download analytics segment: " ++ toString resp.status ++ " "
      ++ resp.statusText ++ " - " ++ (resp.bodyText.getD resp.statusText).take 200)

/-! ### tools/reviews.ts — review sentiment aggregation -/

/-- The attributes of a `CustomerReview` read by `analyzeReviewSentiment`. -/
structure Review where
  rating : Nat
  createdDate : String
  territory : String
deriving DecidableEq, Repr

/-- The `recentTrend` union type. -/
inductive Trend where
  | improving
  | declining
  | stable
deriving DecidableEq, Repr

/-- The result record of `analyzeReviewSentiment`.  The numeric-keyed
`ratingDistribution` and string-keyed `territorySummary` records are
modelled as association lists; fractional values are rationals. -/
structure SentimentSummary where
  averageRating : ℚ
  ratingDistribution : List (Nat × Nat)
  totalReviews : Nat
  recentTrend : Trend
  territorySummary : List (String × Nat × ℚ)
deriving DecidableEq, Repr

/-- `const ratingDistribution = { 1: 0, 2: 0, 3: 0, 4: 0, 5: 0 }`. -/
def initDistribution : List (Nat × Nat) := [(1, 0), (2, 0), (3, 0), (4, 0), (5, 0)]

/-- `ratingDistribution[rating] = (ratingDistribution[rating] || 0) + 1`
on the association-list model: update the entry for the key, or append a
fresh entry with count 1. -/
def bumpRating : List (Nat × Nat) → Nat → List (Nat × Nat)
  | [], r => [(r, 1)]
  | (k, v) :: rest, r =>
    if k = r then (k, v + 1) :: rest else (k, v) :: bumpRating rest r

/-- The per-review `territorySummary` update: create the entry with
`{ count: 0, totalRating: 0 }` when absent, then increment the count and
add the rating. -/
def bumpTerritory : List (String × Nat × Nat) → String → Nat → List (String × Nat × Nat)
  | [], t, r => [(t, 1, r)]
  | (k, c, tr) :: rest, t, r =>
    if k = t then (k, c + 1, tr + r) :: rest else (k, c, tr) :: bumpTerritory rest t r

/-- `Number(x.toFixed(2))`: rounding to two decimal places. -/
def roundTo2 (q : ℚ) : ℚ := (round (q * 100) : ℚ) / 100

/-- The single pass of `analyzeReviewSentiment` over the reviews,
accumulating `totalRating`, `ratingDistribution` and `territorySummary`. -/
def scanStep (acc : Nat × List (Nat × Nat) × List (String × Nat × Nat)) (r : Review) :
    Nat × List (Nat × Nat) × List (String × Nat × Nat) :=
  (acc.1 + r.rating, bumpRating acc.2.1 r.rating, bumpTerritory acc.2.2 r.territory r.rating)

/-- `analyzeReviewSentiment` from `tools/reviews.ts`.  `getTime` stands
for `new Date(createdDate).getTime()`, used only to order reviews for the
trend computation. -/
def analyzeReviewSentiment (getTime : String → Int) (reviews : List Review) :
    SentimentSummary :=
  if reviews.length = 0 then
    ⟨0, initDistribution, 0, .stable, []⟩
  else
    let acc := reviews.foldl scanStep (0, initDistribution, [])
    let totalRating := acc.1
    let territoryResult := acc.2.2.map fun p =>
      (p.1, p.2.1, roundTo2 ((p.2.2 : ℚ) / (p.2.1 : ℚ)))
    let sortedReviews := reviews.mergeSort
      (fun a b => getTime a.createdDate ≤ getTime b.createdDate)
    let midpoint := sortedReviews.length / 2
    let firstHalf := sortedReviews.take midpoint
    let secondHalf := sortedReviews.drop midpoint
    let firstHalfAvg : ℚ :=
      if 0 < firstHalf.length then
        ((firstHalf.map Review.rating).sum : ℚ) / (firstHalf.length : ℚ)
      else 0
    let secondHalfAvg : ℚ :=
      if 0 < secondHalf.length then
        ((secondHalf.map Review.rating).sum : ℚ) / (secondHalf.length : ℚ)
      else 0
    let recentTrend :=
      if secondHalfAvg - firstHalfAvg > 3 / 10 then Trend.improving
      else if firstHalfAvg - secondHalfAvg > 3 / 10 then Trend.declining
      else Trend.stable
    ⟨roundTo2 ((totalRating : ℚ) / (reviews.length : ℚ)), acc.2.1, reviews.length,
      recentTrend, territoryResult⟩

/-- Total of the counts held in a rating-distribution record. -/
def distTotal (d : List (Nat × Nat)) : Nat := (d.map Prod.snd).sum

/-! ### Concrete fixtures used by individual witnesses -/

/-- Second page of the three-page walk used by the pagination witness. -/
def c3Page2W : ApiResponse Nat := ⟨.arr (List.range' 10 10), ⟨some "u3"⟩⟩

/-- Third page of the three-page walk used by the pagination witness. -/
def c3Page3W : ApiResponse Nat := ⟨.arr (List.range' 20 5), ⟨none⟩⟩

/-- Fetch oracle of the three-page walk used by the pagination witness. -/
def c3FetchW : String → FetchResult Nat := fun u =>
  if u = "u2" then .ok c3Page2W else if u = "u3" then .ok c3Page3W else .rejects "boom"

/-! ### Shared lemmas about the pagination loop -/

theorem getAllLoop_chain_none {T : Type} (fetch : String → FetchResult T)
    (ps : List (ApiResponse T)) :
    ∀ (nxt : Option String) (acc : List T) (fuel : Nat),
      chainNext fetch nxt ps none → ps.length ≤ fuel →
      getAllLoop fetch fuel acc nxt = .ok (acc ++ (ps.map pageItems).flatten) := by
  induction ps with
  | nil =>
    intro nxt acc fuel hchain _
    cases nxt with
    | none => simp [getAllLoop]
    | some u => exact Option.noConfusion hchain
  | cons p ps ih =>
    intro nxt acc fuel hchain hfuel
    cases nxt with
    | none => exact hchain.elim
    | some url =>
      obtain ⟨hfetch, hrest⟩ := hchain
      cases fuel with
      | zero => simp at hfuel
      | succ fuel =>
        simp only [getAllLoop, hfetch]
        rw [ih p.links.next (acc ++ pageItems p) fuel hrest
          (by simp only [List.length_cons] at hfuel; omega)]
        simp

theorem getAllLoop_chain_notOk {T : Type} (fetch : String → FetchResult T)
    (ps : List (ApiResponse T)) (url : String) :
    ∀ (nxt : Option String) (acc : List T) (fuel : Nat),
      chainNext fetch nxt ps (some url) → fetch url = .notOk → ps.length < fuel →
      getAllLoop fetch fuel acc nxt = .ok (acc ++ (ps.map pageItems).flatten) := by
  induction ps with
  | nil =>
    intro nxt acc fuel hchain hurl hfuel
    cases nxt with
    | none => exact Option.noConfusion hchain
    | some u =>
      have hn : u = url := Option.some.inj hchain
      subst hn
      cases fuel with
      | zero => simp at hfuel
      | succ fuel => simp only [getAllLoop, hurl]; simp
  | cons p ps ih =>
    intro nxt acc fuel hchain hurl hfuel
    cases nxt with
    | none => exact hchain.elim
    | some u =>
      obtain ⟨hfetch, hrest⟩ := hchain
      cases fuel with
      | zero => simp at hfuel
      | succ fuel =>
        simp only [getAllLoop, hfetch]
        rw [ih p.links.next (acc ++ pageItems p) fuel hrest hurl
          (by simp only [List.length_cons] at hfuel; omega)]
        simp

theorem getAllLoop_chain_rejects {T : Type} (fetch : String → FetchResult T)
    (ps : List (ApiResponse T)) (url msg : String) :
    ∀ (nxt : Option String) (acc : List T) (fuel : Nat),
      chainNext fetch nxt ps (some url) → fetch url = .rejects msg → ps.length < fuel →
      getAllLoop fetch fuel acc nxt = .error msg := by
  induction ps with
  | nil =>
    intro nxt acc fuel hchain hurl hfuel
    cases nxt with
    | none => exact Option.noConfusion hchain
    | some u =>
      have hn : u = url := Option.some.inj hchain
      subst hn
      cases fuel with
      | zero => simp at hfuel
      | succ fuel => simp only [getAllLoop, hurl]
  | cons p ps ih =>
    intro nxt acc fuel hchain hurl hfuel
    cases nxt with
    | none => exact hchain.elim
    | some u =>
      obtain ⟨hfetch, hrest⟩ := hchain
      cases fuel with
      | zero => simp at hfuel
      | succ fuel =>
        simp only [getAllLoop, hfetch]
        exact ih p.links.next (acc ++ pageItems p) fuel hrest hurl
          (by simp only [List.length_cons] at hfuel; omega)

/-! ### Shared lemmas about the sentiment aggregation -/

theorem distTotal_bumpRating (d : List (Nat × Nat)) (r : Nat) :
    distTotal (bumpRating d r) = distTotal d + 1 := by
  induction d with
  | nil => simp [bumpRating, distTotal]
  | cons kv rest ih =>
    obtain ⟨k, v⟩ := kv
    by_cases h : k = r
    · simp [bumpRating, h, distTotal]
      omega
    · simp [bumpRating, h, distTotal] at ih ⊢
      omega

theorem distTotal_scan (reviews : List Review) :
    ∀ (t0 : Nat) (d0 : List (Nat × Nat)) (s0 : List (String × Nat × Nat)),
      distTotal ((reviews.foldl scanStep (t0, d0, s0)).2.1)
        = distTotal d0 + reviews.length := by
  induction reviews with
  | nil => intro t0 d0 s0; simp
  | cons r rs ih =>
    intro t0 d0 s0
    rw [List.foldl_cons]
    rw [show scanStep (t0, d0, s0) r
        = (t0 + r.rating, bumpRating d0 r.rating, bumpTerritory s0 r.territory r.rating)
      from rfl]
    rw [ih]
    rw [distTotal_bumpRating]
    simp
    omega

/-- A pattern list matches at the head of itself extended by anything. -/
theorem charsMatch_append (a y : List Char) :
    charsInclude.charsMatch a (a ++ y) = true := by
  induction a with
  | nil => simp [charsInclude.charsMatch]
  | cons c cs ih => simp [charsInclude.charsMatch, ih]

/-! ### Claim theorems -/

/-- C1: `generateToken` returns the cached token unchanged (no signing,
state untouched) exactly when a cached token exists and its recorded
expiry strictly exceeds `now + 60`; otherwise it mints, caches and
returns a fresh token.  A cached expiry of `now + 61` is reused, one of
`now + 59` forces a new mint, and two calls in the same second starting
from the empty cache return the identical token string. -/
theorem generateToken_cache_decision (sign : JWTPayload → String)
    (config : AppStoreConnectConfig) (now : Nat) :
    (∀ (t : String) (s : AuthState), s.cachedToken = some t → t ≠ "" →
        now + 60 < s.tokenExpiry → generateToken sign config now s = (t, s))
    ∧ (∀ s : AuthState, s.tokenExpiry ≤ now + 60 →
        generateToken sign config now s
          = (sign (mkPayload config now),
             ⟨some (sign (mkPayload config now)), now + 1200⟩))
    ∧ (∀ t : String, t ≠ "" →
        generateToken sign config now ⟨some t, now + 61⟩ = (t, ⟨some t, now + 61⟩))
    ∧ (∀ t : String,
        generateToken sign config now ⟨some t, now + 59⟩
          = (sign (mkPayload config now),
             ⟨some (sign (mkPayload config now)), now + 1200⟩))
    ∧ (generateToken sign config now
          (generateToken sign config now initialAuthState).2).1
        = (generateToken sign config now initialAuthState).1 := by
  have hmint : ∀ s : AuthState,
      (tokenTruthy s.cachedToken && decide (s.tokenExpiry > now + 60)) = false →
      generateToken sign config now s
        = (sign (mkPayload config now),
           ⟨some (sign (mkPayload config now)), now + 1200⟩) := by
    intro s hg
    unfold generateToken
    rw [hg]
    simp [mkPayload]
  refine ⟨?_, ?_, ?_, ?_, ?_⟩
  · intro t s hs ht hexp
    unfold generateToken
    rw [hs]
    simp [tokenTruthy, ht, hexp]
  · intro s hle
    exact hmint s (by simp [Nat.not_lt.mpr hle])
  · intro t ht
    unfold generateToken
    simp [tokenTruthy, ht]
  · intro t
    exact hmint _ (by simp)
  · have h1 : generateToken sign config now initialAuthState
        = (sign (mkPayload config now),
           ⟨some (sign (mkPayload config now)), now + 1200⟩) :=
      hmint initialAuthState (by simp [initialAuthState, tokenTruthy])
    rw [h1]
    by_cases htok : sign (mkPayload config now) = ""
    · rw [hmint _ (by simp [tokenTruthy, htok])]
    · have h60 : now + 60 < now + 1200 := by omega
      unfold generateToken
      simp [tokenTruthy, htok, h60]

/-- Witness for C1 at concrete inputs: a cache holding token `"c"` with
expiry 200 at time 100 (margin 100 s > 60 s) is reused unchanged. -/
theorem generateToken_cache_decision_witness :
    generateToken (fun p => "tok-" ++ toString p.iat) ⟨"I", "K", "P", none⟩ 100
      ⟨some "c", 200⟩ = ("c", ⟨some "c", 200⟩) :=
  (generateToken_cache_decision (fun p => "tok-" ++ toString p.iat)
    ⟨"I", "K", "P", none⟩ 100).1 "c" ⟨some "c", 200⟩ rfl (by decide) (by decide)

/-- C2: after any `generateToken` call the recorded expiry of the cache —
which holds exactly the returned token — strictly exceeds `now + 60`, and
whenever a fresh token is minted its `exp` claim and the recorded expiry
equal `now + 1200` (the payload's `exp` is `iat + 20 * 60`). -/
theorem generateToken_expiry_invariant (sign : JWTPayload → String)
    (config : AppStoreConnectConfig) (now : Nat) :
    (∀ s : AuthState,
        now + 60 < (generateToken sign config now s).2.tokenExpiry
        ∧ (generateToken sign config now s).2.cachedToken
            = some (generateToken sign config now s).1
        ∧ (tokenTruthy s.cachedToken = false ∨ s.tokenExpiry ≤ now + 60 →
            (generateToken sign config now s).2.tokenExpiry = now + 1200
            ∧ (generateToken sign config now s).1 = sign (mkPayload config now)))
    ∧ (mkPayload config now).exp = now + 1200 := by
  constructor
  · intro s
    by_cases hg : (tokenTruthy s.cachedToken && decide (s.tokenExpiry > now + 60)) = true
    · have hand : tokenTruthy s.cachedToken = true
          ∧ decide (s.tokenExpiry > now + 60) = true := by simpa using hg
      have hexp : now + 60 < s.tokenExpiry := of_decide_eq_true hand.2
      have htr : tokenTruthy s.cachedToken = true := hand.1
      obtain ⟨t, hsome⟩ : ∃ t, s.cachedToken = some t := by
        cases hc : s.cachedToken with
        | none => rw [hc] at htr; simp [tokenTruthy] at htr
        | some t => exact ⟨t, rfl⟩
      refine ⟨?_, ?_, ?_⟩
      · unfold generateToken; rw [hg]; simpa using hexp
      · unfold generateToken
        rw [hg]
        simp [hsome]
      · intro hcond
        rcases hcond with hfalse | hle
        · rw [hfalse] at hg; simp at hg
        · exact absurd hexp (by omega)
    · have hg2 := Bool.not_eq_true _ |>.mp hg
      have hmint : generateToken sign config now s
          = (sign (mkPayload config now),
             ⟨some (sign (mkPayload config now)), (mkPayload config now).exp⟩) := by
        unfold generateToken
        rw [hg2]
        simp
      rw [hmint]
      refine ⟨by show now + 60 < now + 20 * 60; omega, by simp,
        fun _ => ⟨by show now + 20 * 60 = now + 1200; omega, by simp⟩⟩
  · simp [mkPayload]

/-- C3: when the first request succeeds and every page reached along the
`next` links is fetched successfully, each page carrying an array as its
primary data, `getAll` returns the concatenation of the pages' item lists
in original order, stopping at the first page whose `next` link is
absent. -/
theorem getAll_concatenates_pages {T : Type} (firstResp : HttpResponse T)
    (fetch : String → FetchResult T) (ps : List (ApiResponse T))
    (ls : List (List T)) (fuel : Nat)
    (hok : firstResp.ok = true)
    (hchain : chainNext fetch firstResp.successBody.links.next ps none)
    (hfuel : ps.length ≤ fuel)
    (hdata : (firstResp.successBody :: ps).map ApiResponse.data = ls.map Primary.arr) :
    getAll firstResp fetch fuel = .ok ls.flatten := by
  have hmap : (firstResp.successBody :: ps).map pageItems = ls := by
    have h1 : (firstResp.successBody :: ps).map pageItems
        = ((firstResp.successBody :: ps).map ApiResponse.data).map primaryItems := by
      rw [List.map_map]
      rfl
    rw [h1, hdata, List.map_map]
    have h2 : (primaryItems ∘ Primary.arr) = (id : List T → List T) := by
      funext l
      rfl
    rw [h2, List.map_id]
  unfold getAll
  rw [show get firstResp = .ok firstResp.successBody from by simp [get, hok]]
  show getAllLoop fetch fuel (pageItems firstResp.successBody)
    firstResp.successBody.links.next = _
  rw [getAllLoop_chain_none fetch ps _ _ _ hchain hfuel]
  rw [← hmap]
  simp

/-- Witness for C3: three pages of 10, 10 and 5 items with `next` links on
the first two pages yield exactly the 25 items 0..24 in order. -/
theorem getAll_concatenates_pages_witness :
    getAll (⟨true, 200, "OK", none, ⟨.arr (List.range 10), ⟨some "u2"⟩⟩⟩ : HttpResponse Nat)
      c3FetchW 2 = .ok (List.range 25) := by
  have h := getAll_concatenates_pages
    (⟨true, 200, "OK", none, ⟨.arr (List.range 10), ⟨some "u2"⟩⟩⟩ : HttpResponse Nat)
    c3FetchW [c3Page2W, c3Page3W]
    [List.range 10, List.range' 10 10, List.range' 20 5] 2
    rfl ⟨rfl, rfl, rfl⟩ (by decide) (by decide)
  rw [h]
  exact congrArg Except.ok (by decide)

/-- C4 counterexample: the claim covers transport failures and any failing
page, but a rejected `fetch` on page 2 makes `getAll` propagate the error
instead of returning the 10 items of page 1, and a non-2xx first request
raises the generic API error instead of returning the empty
accumulation. -/
theorem getAll_partial_failure_counterexample :
    (getAll (⟨true, 200, "OK", none, ⟨.arr (List.range 10), ⟨some "u2"⟩⟩⟩ : HttpResponse Nat)
      (fun _ => .rejects "network error") 2 = .error "network error"
    ∧ (Except.error "network error" : Except String (List Nat)) ≠ .ok (List.range 10))
    ∧ getAll (⟨false, 500, "Internal Server Error", none,
        ⟨.arr ([] : List Nat), ⟨none⟩⟩⟩ : HttpResponse Nat)
      (fun _ => .notOk) 1 = .error "API Error: Internal Server Error" := by
  refine ⟨⟨rfl, ?_⟩, rfl⟩
  intro h
  exact Except.noConfusion h

/-- C4 amended: after a successful first request and a chain of successful
pages, a non-2xx response on the following page makes `getAll` stop
silently and return the items accumulated so far, while a transport
failure (rejected fetch) on that page propagates as an error. -/
theorem getAll_stops_on_non2xx_page {T : Type} (firstResp : HttpResponse T)
    (fetch : String → FetchResult T) (ps : List (ApiResponse T)) (url : String)
    (fuel : Nat)
    (hok : firstResp.ok = true)
    (hchain : chainNext fetch firstResp.successBody.links.next ps (some url))
    (hfuel : ps.length < fuel) :
    (fetch url = .notOk →
        getAll firstResp fetch fuel
          = .ok (((firstResp.successBody :: ps).map pageItems).flatten))
    ∧ (∀ msg, fetch url = .rejects msg →
        getAll firstResp fetch fuel = .error msg) := by
  constructor
  · intro hurl
    unfold getAll
    rw [show get firstResp = .ok firstResp.successBody from by simp [get, hok]]
    show getAllLoop fetch fuel (pageItems firstResp.successBody)
      firstResp.successBody.links.next = _
    rw [getAllLoop_chain_notOk fetch ps url _ _ _ hchain hurl hfuel]
    simp
  · intro msg hurl
    unfold getAll
    rw [show get firstResp = .ok firstResp.successBody from by simp [get, hok]]
    show getAllLoop fetch fuel (pageItems firstResp.successBody)
      firstResp.successBody.links.next = _
    exact getAllLoop_chain_rejects fetch ps url msg _ _ _ hchain hurl hfuel

/-- Witness for the amended C4: a non-2xx response on page 2 returns
exactly the 10 items of page 1 without raising. -/
theorem getAll_stops_on_non2xx_page_witness :
    getAll (⟨true, 200, "OK", none, ⟨.arr (List.range 10), ⟨some "u2"⟩⟩⟩ : HttpResponse Nat)
      (fun _ => .notOk) 1 = .ok (List.range 10) := by
  have h := (getAll_stops_on_non2xx_page
    (⟨true, 200, "OK", none, ⟨.arr (List.range 10), ⟨some "u2"⟩⟩⟩ : HttpResponse Nat)
    (fun _ => .notOk) [] "u2" 1 rfl rfl (by decide)).1 rfl
  rw [h]
  exact congrArg Except.ok (by decide)

/-- C9 counterexample: a successful page whose primary data is a single
resource contributes no items — `getAll` returns the empty list, not a
one-element list, for a single-resource first page. -/
theorem getAll_single_resource_counterexample :
    getAll (⟨true, 200, "OK", none, ⟨.single 7, ⟨none⟩⟩⟩ : HttpResponse Nat)
      (fun _ => .rejects "unused") 0 = .ok ([] : List Nat)
    ∧ ([] : List Nat) ≠ [7] := by
  constructor
  · rfl
  · intro h
    exact List.noConfusion h

/-- C9 amended: a page whose primary data is a single resource is skipped
by the walker (the `Array.isArray` guard has no else branch), so a
single-resource first page contributes zero items and the result consists
of the remaining pages' items only. -/
theorem getAll_skips_single_resource {T : Type} (firstResp : HttpResponse T)
    (fetch : String → FetchResult T) (ps : List (ApiResponse T)) (fuel : Nat)
    (x : T)
    (hok : firstResp.ok = true)
    (hsingle : firstResp.successBody.data = .single x)
    (hchain : chainNext fetch firstResp.successBody.links.next ps none)
    (hfuel : ps.length ≤ fuel) :
    getAll firstResp fetch fuel = .ok ((ps.map pageItems).flatten) := by
  unfold getAll
  rw [show get firstResp = .ok firstResp.successBody from by simp [get, hok]]
  show getAllLoop fetch fuel (pageItems firstResp.successBody)
    firstResp.successBody.links.next = _
  rw [show pageItems firstResp.successBody = [] from by
    simp [pageItems, hsingle, primaryItems]]
  rw [getAllLoop_chain_none fetch ps _ _ _ hchain hfuel]
  simp

/-- Witness for the amended C9: a single-resource page yields the empty
result. -/
theorem getAll_skips_single_resource_witness :
    getAll (⟨true, 200, "OK", none, ⟨.single 7, ⟨none⟩⟩⟩ : HttpResponse Nat)
      (fun _ => .rejects "unused") 0 = .ok ([] : List Nat) := by
  have h := getAll_skips_single_resource
    (⟨true, 200, "OK", none, ⟨.single 7, ⟨none⟩⟩⟩ : HttpResponse Nat)
    (fun _ => .rejects "unused") [] 0 7 rfl rfl rfl (by decide)
  simpa using h

/-- C5: every non-2xx response to a GET/POST/PATCH/DELETE request fails
with the message `API Error: ` followed by the first error object's
`detail` when present and non-empty, and by the HTTP status text
otherwise; in particular the body `\x7b"errors":[\x7b"detail":"Not found"\x7d]\x7d`
yields exactly `API Error: Not found`. -/
theorem request_error_message {T : Type} (resp : HttpResponse T)
    (respD : HttpResponse Unit) (h : resp.ok = false) (hD : respD.ok = false) :
    get resp = .error (apiErrorMessage resp.errorBody resp.statusText)
    ∧ post resp = .error (apiErrorMessage resp.errorBody resp.statusText)
    ∧ patch resp = .error (apiErrorMessage resp.errorBody resp.statusText)
    ∧ delete respD = .error (apiErrorMessage respD.errorBody respD.statusText)
    ∧ (∀ (st d : String) (rest : List ErrObj), d ≠ "" →
        apiErrorMessage (some (⟨some d⟩ :: rest)) st = "API Error: " ++ d)
    ∧ (∀ st : String,
        apiErrorMessage none st = "API Error: " ++ st
        ∧ apiErrorMessage (some []) st = "API Error: " ++ st
        ∧ ∀ rest : List ErrObj,
            apiErrorMessage (some (⟨none⟩ :: rest)) st = "API Error: " ++ st)
    ∧ apiErrorMessage (some [⟨some "Not found"⟩]) "Not Found" = "API Error: Not found" := by
  refine ⟨by simp [get, h], by simp [post, h], by simp [patch, h], by simp [delete, hD],
    ?_, ?_, rfl⟩
  · intro st d rest hd
    simp [apiErrorMessage, firstDetailOr, hd]
  · intro st
    exact ⟨rfl, rfl, fun rest => rfl⟩

/-- Witness for C5: a 404 response with body detail `Not found` makes
`get` fail with exactly `API Error: Not found`. -/
theorem request_error_message_witness :
    get (⟨false, 404, "Not Found", some [⟨some "Not found"⟩],
        ⟨.arr ([] : List Nat), ⟨none⟩⟩⟩ : HttpResponse Nat)
      = .error "API Error: Not found" := by
  have h := request_error_message
    (⟨false, 404, "Not Found", some [⟨some "Not found"⟩],
        ⟨.arr ([] : List Nat), ⟨none⟩⟩⟩ : HttpResponse Nat)
    (⟨false, 404, "Not Found", none, ⟨.arr ([] : List Unit), ⟨none⟩⟩⟩ : HttpResponse Unit)
    rfl rfl
  rw [h.1]
  exact congrArg Except.error (by decide)

/-- C6: `downloadAnalyticsSegment` sends no headers at all when the URL
contains a cloud-object-storage marker (`s3.` or `amazonaws.com`), and
otherwise sends exactly the bearer `Authorization` header, `Content-Type`
and `Accept-Encoding: gzip`. -/
theorem segment_headers_auth_rule (tok url : String) :
    (isS3Url url = true → segmentRequestHeaders tok url = [])
    ∧ (isS3Url url = false →
        segmentRequestHeaders tok url
          = [("Authorization", "Bearer " ++ tok), ("Content-Type", "application/json"),
             ("Accept-Encoding", "gzip")]
        ∧ ("Authorization", "Bearer " ++ tok) ∈ segmentRequestHeaders tok url
        ∧ ("Content-Type", "application/json") ∈ segmentRequestHeaders tok url
        ∧ ("Accept-Encoding", "gzip") ∈ segmentRequestHeaders tok url) := by
  constructor
  · intro h
    simp [segmentRequestHeaders, h]
  · intro h
    refine ⟨by simp [segmentRequestHeaders, h, getAuthHeaders], ?_, ?_, ?_⟩
      <;> simp [segmentRequestHeaders, h, getAuthHeaders]

/-- Witness for C6: an `amazonaws.com` URL gets no headers; an API-origin
URL gets the three standard headers. -/
theorem segment_headers_auth_rule_witness :
    segmentRequestHeaders "TOK" "https://r.s3.us-west-2.amazonaws.com/seg" = []
    ∧ segmentRequestHeaders "TOK" "https://api.appstoreconnect.apple.com/v1/seg"
        = [("Authorization", "Bearer TOK"), ("Content-Type", "application/json"),
           ("Accept-Encoding", "gzip")] :=
  ⟨(segment_headers_auth_rule "TOK" "https://r.s3.us-west-2.amazonaws.com/seg").1 (by decide),
   ((segment_headers_auth_rule "TOK" "https://api.appstoreconnect.apple.com/v1/seg").2
     (by decide)).1⟩

/-- C7: a 404 from the sales-report endpoint yields the distinguished
report-not-yet-available message (which is never equal to a generic
`API Error: ...` message), any other non-2xx on that endpoint reuses the
generic envelope handling, and a 404 routed through the generic request
engine yields the generic remote API error. -/
theorem salesReport_404_distinction {T : Type}
    (gz : List Nat → Except String (List Nat)) (utf8 : List Nat → String)
    (resp : ReportResponse) (respG : HttpResponse T)
    (hnot : resp.ok = false) (hG : respG.ok = false) :
    (resp.status = 404 →
        getSalesReport gz utf8 resp = .error salesReportNotAvailableMsg)
    ∧ (resp.status ≠ 404 →
        getSalesReport gz utf8 resp
          = .error (apiErrorMessage resp.errorBody resp.statusText))
    ∧ (respG.status = 404 →
        get respG = .error (apiErrorMessage respG.errorBody respG.statusText))
    ∧ (∀ (errs : Option (List ErrObj)) (st : String),
        apiErrorMessage errs st ≠ salesReportNotAvailableMsg) := by
  refine ⟨?_, ?_, ?_, ?_⟩
  · intro h404
    simp [getSalesReport, hnot, h404]
  · intro hne
    simp [getSalesReport, hnot, hne]
  · intro _
    simp [get, hG]
  · intro errs st h
    have hd : ("API Error: " ++ firstDetailOr errs st).data
        = salesReportNotAvailableMsg.data := congrArg String.data h
    have hdap : ("API Error: " ++ firstDetailOr errs st).data
        = "API Error: ".data ++ (firstDetailOr errs st).data := rfl
    rw [hdap] at hd
    have h1 : charsInclude.charsMatch "API Error: ".data
        ("API Error: ".data ++ (firstDetailOr errs st).data) = true :=
      charsMatch_append _ _
    rw [hd] at h1
    have h2 : charsInclude.charsMatch "API Error: ".data
        salesReportNotAvailableMsg.data = false := by decide
    rw [h2] at h1
    exact Bool.noConfusion h1

/-- Witness for C7: a concrete 404 report response yields the distinguished
message while a concrete 404 generic response yields the generic error. -/
theorem salesReport_404_distinction_witness :
    getSalesReport (fun b => .ok b) (fun _ => "tsv")
        (⟨false, 404, "Not Found", none, []⟩ : ReportResponse)
      = .error salesReportNotAvailableMsg
    ∧ get (⟨false, 404, "Not Found", none,
        ⟨.arr ([] : List Nat), ⟨none⟩⟩⟩ : HttpResponse Nat)
      = .error "API Error: Not Found" := by
  have h := salesReport_404_distinction (fun b => .ok b) (fun _ => "tsv")
    (⟨false, 404, "Not Found", none, []⟩ : ReportResponse)
    (⟨false, 404, "Not Found", none, ⟨.arr ([] : List Nat), ⟨none⟩⟩⟩ : HttpResponse Nat)
    rfl rfl
  refine ⟨h.1 rfl, ?_⟩
  rw [h.2.2.1 rfl]
  exact congrArg Except.error (by decide)

/-- C8: on a successful fetch `downloadAnalyticsSegment` returns the
decompressed text when `gunzipSync` succeeds, and when the payload is not
gzip-compressed (`gunzipSync` throws) it returns the raw bytes decoded as
UTF-8 — an `.ok` result, never a decompression error. -/
theorem segment_gzip_fallback (gz : List Nat → Except String (List Nat))
    (utf8 : List Nat → String) (resp : SegResponse) (h : resp.ok = true) :
    (∀ m, gz resp.bytes = .error m →
        downloadAnalyticsSegment gz utf8 resp = .ok (utf8 resp.bytes))
    ∧ (∀ d, gz resp.bytes = .ok d →
        downloadAnalyticsSegment gz utf8 resp = .ok (utf8 d)) := by
  constructor
  · intro m hm
    simp [downloadAnalyticsSegment, h, hm]
  · intro d hdd
    simp [downloadAnalyticsSegment, h, hdd]

/-- Witness for C8: an uncompressed payload on which gunzip throws is
returned as its own UTF-8 decoding, with no error raised. -/
theorem segment_gzip_fallback_witness :
    downloadAnalyticsSegment (fun _ => .error "incorrect header check")
      (fun bs => if bs = [104, 105] then "hi" else "")
      (⟨true, 200, "OK", some "", [104, 105]⟩ : SegResponse) = .ok "hi" := by
  have h := (segment_gzip_fallback (fun _ => .error "incorrect header check")
    (fun bs => if bs = [104, 105] then "hi" else "")
    (⟨true, 200, "OK", some "", [104, 105]⟩ : SegResponse) rfl).1
    "incorrect header check" rfl
  rw [h]
  exact congrArg Except.ok (by decide)

/-- C10: `analyzeReviewSentiment` reports `totalReviews` equal to the
input length, the counts of its rating distribution always sum to that
length, and on the empty list it returns average 0, the all-zero
distribution over ratings 1..5 and the `stable` trend. -/
theorem analyzeReviewSentiment_counts (getTime : String → Int)
    (reviews : List Review) :
    (analyzeReviewSentiment getTime reviews).totalReviews = reviews.length
    ∧ distTotal (analyzeReviewSentiment getTime reviews).ratingDistribution
        = reviews.length
    ∧ analyzeReviewSentiment getTime []
        = ⟨0, [(1, 0), (2, 0), (3, 0), (4, 0), (5, 0)], 0, .stable, []⟩ := by
  refine ⟨?_, ?_, rfl⟩
  · by_cases h : reviews.length = 0
    · simp [analyzeReviewSentiment, h]
    · simp [analyzeReviewSentiment, h]
  · by_cases h : reviews.length = 0
    · have : reviews = [] := List.length_eq_zero.mp h
      subst this
      simp [analyzeReviewSentiment, distTotal, initDistribution]
    · have hstep : (analyzeReviewSentiment getTime reviews).ratingDistribution
          = (reviews.foldl scanStep (0, initDistribution, [])).2.1 := by
        simp [analyzeReviewSentiment, h]
      rw [hstep, distTotal_scan]
      simp [distTotal, initDistribution]

/-- Witness for C2 at concrete inputs: at time 100 with an empty cache the
mint records expiry 1300 = 100 + 1200 > 160, and the cache holds the
returned token. -/
theorem generateToken_expiry_invariant_witness :
    (100 + 60 < (generateToken (fun p => "tok-" ++ toString p.iat)
        ⟨"I", "K", "P", none⟩ 100 initialAuthState).2.tokenExpiry)
    ∧ (generateToken (fun p => "tok-" ++ toString p.iat)
        ⟨"I", "K", "P", none⟩ 100 initialAuthState).2.tokenExpiry = 100 + 1200 :=
  ⟨((generateToken_expiry_invariant (fun p => "tok-" ++ toString p.iat)
      ⟨"I", "K", "P", none⟩ 100).1 initialAuthState).1,
   (((generateToken_expiry_invariant (fun p => "tok-" ++ toString p.iat)
      ⟨"I", "K", "P", none⟩ 100).1 initialAuthState).2.2 (Or.inl rfl)).1⟩

end ASC
